import Mathlib

/-!
Verification of the weft reader core (src/reader.py): section title
resolution, pagination of section content into viewport-sized pages,
and the page/section navigation state machine.

Python semantics embedded explicitly:
* `str.split(sep)` with leftmost non-overlapping occurrences, returning
  at least one (possibly empty) piece;
* integer `//` as flooring division (`Int.fdiv`), with the
  `ZeroDivisionError` at a zero divisor modelled by `Option`;
* list indexing with negative wraparound (`pyGet`);
* truthiness of lists and strings as non-emptiness.
-/

namespace Weft

/-- ASCII whitespace characters removed by Python `str.strip()`. -/
def wsChars : List Char := [' ', '\t', '\n', '\r', '\x0b', '\x0c']

/-- whitespace test used by `strip`. -/
def pyWS (c : Char) : Bool := wsChars.contains c

/-- Python `str.strip()` on a character list: drop whitespace at both ends. -/
def stripWS (cs : List Char) : List Char :=
  ((cs.dropWhile pyWS).reverse.dropWhile pyWS).reverse

/-- the newline character. -/
def nlChar : Char := '\n'

/-- the markdown heading marker. -/
def hashChar : Char := '#'

/-- the underscore replaced in file-name fallback titles. -/
def underChar : Char := '_'

/-- the space that replaces an underscore. -/
def spaceChar : Char := ' '

/-- the extension separator of `Path.stem`. -/
def dotChar : Char := '.'

/-- the path separator of `Path.name`. -/
def slashChar : Char := '/'

/-- Prepend a character to the first group of a split result. -/
def consHead (c : Char) : List (List Char) → List (List Char)
  | [] => [[c]]
  | g :: gs => (c :: g) :: gs

/-- Python `content.split` on the two-newline paragraph separator
(reader.py line 86): split at leftmost non-overlapping occurrences of
two consecutive newlines. -/
def splitNN : List Char → List (List Char)
  | [] => [[]]
  | [c] => consHead c [[]]
  | c :: c2 :: rest =>
    if c = nlChar ∧ c2 = nlChar then [] :: splitNN rest
    else consHead c (splitNN (c2 :: rest))

/-- Python `split` on a single newline (reader.py line 66). -/
def splitNL : List Char → List (List Char)
  | [] => [[]]
  | c :: rest => if c = nlChar then [] :: splitNL rest else consHead c (splitNL rest)

/-- Python `line.startswith` with the heading marker (reader.py line 68). -/
def isHeading (l : List Char) : Bool := l.head? == some hashChar

/-- Python `line.lstrip` of heading markers followed by `strip()` (reader.py line 69). -/
def stripHeadingMarks (l : List Char) : List Char :=
  stripWS (l.dropWhile (fun c => c == hashChar))

/-- the `for line in lines[:5]` loop of `_extract_title` with its early
return on the first heading line (reader.py lines 67-69); apply to the
first five lines only. -/
def findHeading : List (List Char) → Option (List Char)
  | [] => none
  | l :: ls => if isHeading l then some (stripHeadingMarks l) else findHeading ls

/-- Python `Path(file_name).name`: the component after the last slash. -/
def lastComp (cs : List Char) : List Char :=
  (cs.reverse.takeWhile (fun c => !(c == slashChar))).reverse

/-- position of the last dot of a name, if any. -/
def lastDotIdx (cs : List Char) : Option Nat :=
  ((cs.enum.filter (fun p => p.2 == dotChar)).getLast?).map (fun p => p.1)

/-- Python `Path(file_name).stem`: the final component without its extension; the
extension is non-empty only when the last dot is neither the first nor the
last character of the name. -/
def stemOf (name : List Char) : List Char :=
  match lastDotIdx name with
  | some i => if 0 < i ∧ i + 1 < name.length then name.take i else name
  | none => name

/-- the file-name fallback of `_extract_title` (reader.py line 72):
stem, underscores to spaces, stripped. -/
def fileNameFallback (fileName : String) : String :=
  String.mk (stripWS ((stemOf (lastComp fileName.data)).map
    (fun c => if c == underChar then spaceChar else c)))

/-- strategies 2 and 3 of `_extract_title` (reader.py lines 65-72):
scan the first five lines of the stripped content for a heading,
else fall back to the file name. -/
def titleFromContent (content fileName : String) : String :=
  match findHeading ((splitNL (stripWS content.data)).take 5) with
  | some t => String.mk t
  | none => fileNameFallback fileName

/-- Function `_extract_title` (reader.py lines 60-72); `declaredTitle = none` models
a missing or `None` title attribute, and an empty declared title is falsy. -/
def extractTitle (declaredTitle : Option String) (content fileName : String) : String :=
  match declaredTitle with
  | some t => if t.length = 0 then titleFromContent content fileName else t
  | none => titleFromContent content fileName

/-- Modelled from the spec wording of C9: the heading is searched among the
first five NON-empty lines of the converted content (the code instead scans
the first five raw lines). -/
def specTitleFromContent (content fileName : String) : String :=
  match findHeading (((splitNL (stripWS content.data)).filter
      (fun l => !l.isEmpty)).take 5) with
  | some t => String.mk t
  | none => fileNameFallback fileName

/-- Modelled from the spec wording of C9: title resolution with the
non-empty-line heading scan. -/
def specExtractTitle (declaredTitle : Option String) (content fileName : String) : String :=
  match declaredTitle with
  | some t => if t.length = 0 then specTitleFromContent content fileName else t
  | none => specTitleFromContent content fileName

/-- Assignment `paragraphs = content.split` in `display_current` (reader.py line 86). -/
def pyParagraphs (content : String) : List String :=
  (splitNN content.data).map (fun g => String.mk g)

/-- the `para_lines` estimate of reader.py line 93, as Python evaluates it
when the divisor `console.width - 10` is nonzero: flooring division plus
the embedded newline count plus the fixed overhead 2. -/
def paraLines (w : Int) (para : String) : Int :=
  Int.fdiv (para.length : Int) (w - 10) + (para.data.count nlChar : Int) + 2

/-- the same estimate with the `ZeroDivisionError` at width 10 made
explicit. -/
def paraLinesE (w : Int) (para : String) : Option Int :=
  if w - 10 = 0 then none else some (paraLines w para)

/-- Modelled from the spec wording of C3: ceiling division with the divisor
guarded by `max 1`, plus newline count, plus the fixed overhead. -/
def specEstimate (w : Int) (para : String) : Int :=
  (((para.length + (max 1 (w - 10)).toNat - 1) / (max 1 (w - 10)).toNat : Nat) : Int)
    + (para.data.count nlChar : Int) + 2

/-- loop state of the paragraph packing loop of `display_current`
(reader.py lines 87-106): accumulated pages, the page being built, and its
running line estimate. -/
structure PackState where
  pages : List (List String)
  cur : List String
  lines : Int

deriving instance DecidableEq for PackState

/-- one iteration of the packing loop body (reader.py lines 91-106). -/
def packStep (budget : Int) (est : String → Int) (s : PackState) (para : String) : PackState :=
  if budget < s.lines + est para then
    if s.cur ≠ [] then PackState.mk (s.pages ++ [s.cur]) [para] (est para)
    else PackState.mk (s.pages ++ [[para]]) [] 0
  else PackState.mk s.pages (s.cur ++ [para]) (s.lines + est para)

/-- the whole packing loop from the empty initial state. -/
def packRun (budget : Int) (est : String → Int) (paras : List String) : PackState :=
  paras.foldl (packStep budget est) (PackState.mk [] [] 0)


/-- the trailing flush after the loop (reader.py lines 109-110). -/
def packFinish (s : PackState) : List (List String) :=
  if s.cur ≠ [] then s.pages ++ [s.cur] else s.pages

/-- pagination at the paragraph-group level: each page is the list of
paragraphs joined into it. -/
def packPars (budget : Int) (est : String → Int) (paras : List String) : List (List String) :=
  packFinish (packRun budget est paras)

/-- pagination of `display_current` (reader.py lines 86-110) at the
paragraph-group level for an explicit viewport; `none` models the
`ZeroDivisionError` raised when `console.width = 10`. -/
def paginatePars (content : String) (w h : Int) : Option (List (List String)) :=
  if w - 10 = 0 then none
  else some (packPars (h - 10) (paraLines w) (pyParagraphs content))

/-- the page separator used by the join of reader.py lines 97 and 110. -/
def nnSep : String := "\n\n"

/-- join each paragraph group into its rendered page text. -/
def pagesOf (gs : List (List String)) : List String :=
  gs.map (fun g => String.intercalate nnSep g)

/-- pagination producing the page texts of `self.pages`. -/
def paginate (content : String) (w h : Int) : Option (List String) :=
  (paginatePars content w h).map pagesOf

/-- the placeholder page text of reader.py line 114. -/
def noContentPage : String := "[No content]"

/-- reader.py lines 113-114: substitute the placeholder page when the page
list is empty. -/
def pagesOrPlaceholder (ps : List String) : List String :=
  if ps = [] then [noContentPage] else ps

/-- the bounds check of reader.py lines 117-120 on `current_page`. -/
def clampPage (n : Nat) (p : Int) : Int :=
  if (n : Int) ≤ p then (n : Int) - 1 else if p < 0 then 0 else p

/-- concatenation of all paragraph groups. -/
def flatJoin (gss : List (List String)) : List String :=
  gss.foldr (fun a b => a ++ b) []

/-- all paragraphs held by a loop state: flushed pages then the page being
built. -/
def packAcc (s : PackState) : List String :=
  flatJoin s.pages ++ s.cur

/-- the mutable reader position of reader.py: the section list (as section
contents), both indices, and the cached `self.pages` of the last displayed
section. -/
structure RState where
  sections : List String
  current_index : Int
  current_page : Int
  pages : List String

deriving instance DecidableEq for RState

/-- Method `navigate` of reader.py lines 171-191, with Python chained
comparisons spelled out; the second component is the returned Bool. -/
def navigate (s : RState) (d : Int) : RState × Bool :=
  if d = -1 ∨ d = 1 then
    if 0 ≤ s.current_index + d ∧ s.current_index + d < (s.sections.length : Int) then
      (RState.mk s.sections (s.current_index + d) 0 s.pages, true)
    else (s, false)
  else if d = -2 ∨ d = 2 then
    if 0 ≤ s.current_page + (if d = 2 then 1 else -1) ∧
        s.current_page + (if d = 2 then 1 else -1) < (s.pages.length : Int) then
      (RState.mk s.sections s.current_index
        (s.current_page + (if d = 2 then 1 else -1)) s.pages, true)
    else
      if 0 ≤ s.current_index + (if d = 2 then 1 else -1) ∧
          s.current_index + (if d = 2 then 1 else -1) < (s.sections.length : Int) then
        (RState.mk s.sections (s.current_index + (if d = 2 then 1 else -1))
          (if d = 2 then 0 else (s.pages.length : Int) - 1) s.pages, true)
      else (s, false)
  else if d = -99 then (RState.mk s.sections 0 0 s.pages, true)
  else if d = 99 then
    (RState.mk s.sections ((s.sections.length : Int) - 1)
      ((s.pages.length : Int) - 1) s.pages, true)
  else (s, false)

/-- Python list indexing with negative wraparound; `none` is an
`IndexError`. -/
def pyGet {α : Type} (l : List α) (i : Int) : Option α :=
  if i < 0 then
    if 0 ≤ i + (l.length : Int) then l[(i + (l.length : Int)).toNat]? else none
  else l[i.toNat]?

/-- Method `display_current` (reader.py lines 74-122) as a state update: early
return when there are no sections, else read the current section, paginate
it, substitute the placeholder, clamp `current_page`, and read the current
page; `none` models an uncaught exception. -/
def displayUpdate (w h : Int) (s : RState) : Option RState :=
  if s.sections = [] then some s
  else
    match pyGet s.sections s.current_index with
    | none => none
    | some content =>
      match paginate content w h with
      | none => none
      | some ps0 =>
        match pyGet (pagesOrPlaceholder ps0)
            (clampPage (pagesOrPlaceholder ps0).length s.current_page) with
        | none => none
        | some _ =>
          some (RState.mk s.sections s.current_index
            (clampPage (pagesOrPlaceholder ps0).length s.current_page)
            (pagesOrPlaceholder ps0))

/-- the freshly constructed reader position (reader.py lines 24-25). -/
def initState (sections : List String) : RState := RState.mk sections 0 0 []

/-- the main loop steps: one `navigate` followed by one `display_current`
per key press. -/
def runSteps (w h : Int) : RState → List Int → Option RState
  | s, [] => some s
  | s, d :: ds =>
    match displayUpdate w h (navigate s d).1 with
    | none => none
    | some s2 => runSteps w h s2 ds

/-- the main loop of `read` (reader.py lines 393-409): an initial display,
then navigation directions each followed by a display. -/
def navRun (w h : Int) (sections : List String) (ds : List Int) : Option RState :=
  match displayUpdate w h (initState sections) with
  | none => none
  | some s0 => runSteps w h s0 ds

/-- the range invariant of spec section 3 for a displayed state: both
indices in range, and the cached pages derived from the current section. -/
def NavInv (w h : Int) (s : RState) : Prop :=
  0 ≤ s.current_index ∧ s.current_index < (s.sections.length : Int) ∧
  0 ≤ s.current_page ∧ s.current_page < (s.pages.length : Int) ∧
  ∃ c ps, pyGet s.sections s.current_index = some c ∧ paginate c w h = some ps ∧
    s.pages = pagesOrPlaceholder ps

/-! ### Packing-loop lemmas -/

theorem flatJoin_nil : flatJoin [] = [] := rfl

theorem flatJoin_cons (g : List String) (gss : List (List String)) :
    flatJoin (g :: gss) = g ++ flatJoin gss := rfl

theorem flatJoin_concat (gss : List (List String)) (g : List String) :
    flatJoin (gss ++ [g]) = flatJoin gss ++ g := by
  induction gss with
  | nil => simp [flatJoin]
  | cons a as ih => simp only [List.cons_append, flatJoin_cons, ih, List.append_assoc]

/-- one loop iteration moves exactly the processed paragraph into the
accumulated state: nothing is dropped or duplicated. -/
theorem packStep_acc (b : Int) (est : String → Int) (s : PackState) (p : String) :
    packAcc (packStep b est s p) = packAcc s ++ [p] := by
  unfold packStep packAcc
  split_ifs with h1 h2
  · simp [flatJoin_concat, List.append_assoc]
  · have hc : s.cur = [] := by
      by_contra hne
      exact h2 hne
    simp [flatJoin_concat, hc]
  · simp [List.append_assoc]

theorem packFold_acc (b : Int) (est : String → Int) (paras : List String) :
    ∀ s : PackState, packAcc (paras.foldl (packStep b est) s) = packAcc s ++ paras := by
  induction paras with
  | nil => intro s; simp
  | cons p ps ih =>
    intro s
    rw [List.foldl_cons, ih (packStep b est s p), packStep_acc]
    simp [List.append_assoc]

theorem packFinish_acc (s : PackState) : flatJoin (packFinish s) = packAcc s := by
  unfold packFinish packAcc
  split_ifs with h
  · exact flatJoin_concat s.pages s.cur
  · have hc : s.cur = [] := by
      by_contra hne
      exact h hne
    simp [hc]

/-- the packing loop preserves the paragraph sequence exactly. -/
theorem packPars_acc (b : Int) (est : String → Int) (paras : List String) :
    flatJoin (packPars b est paras) = paras := by
  unfold packPars packRun
  rw [packFinish_acc, packFold_acc]
  rfl

theorem consHead_ne_nil (c : Char) (l : List (List Char)) : consHead c l ≠ [] := by
  cases l <;> simp [consHead]

theorem splitNN_ne_nil (cs : List Char) : splitNN cs ≠ [] := by
  match cs with
  | [] => simp [splitNN]
  | [c] => simp [splitNN, consHead]
  | c :: c2 :: rest =>
    rw [splitNN]
    split_ifs with h
    · simp
    · exact consHead_ne_nil c (splitNN (c2 :: rest))

theorem pyParagraphs_ne_nil (content : String) : pyParagraphs content ≠ [] := by
  unfold pyParagraphs
  intro hnil
  exact splitNN_ne_nil content.data (List.map_eq_nil_iff.mp hnil)

/-- C1 (amended): for every non-empty content and viewport of width at
least 1 other than 10 and height at least 1, pagination succeeds, returns
at least one page, and the concatenation of the paragraph groups of all
pages is exactly the paragraph sequence obtained by splitting the content
on the blank-line delimiter. At width 10 (the margin constant) the
unguarded divisor is zero and pagination raises instead. -/
theorem c1_pagination_preserves_paragraphs (content : String) (w h : Int)
    (hc : content ≠ ("")) (hw1 : 1 ≤ w) (hh1 : 1 ≤ h) (hw10 : w ≠ 10) :
    ∃ gs, paginatePars content w h = some gs ∧ gs ≠ []
      ∧ flatJoin gs = pyParagraphs content := by
  refine ⟨packPars (h - 10) (paraLines w) (pyParagraphs content), ?_, ?_,
    packPars_acc (h - 10) (paraLines w) (pyParagraphs content)⟩
  · unfold paginatePars
    rw [if_neg (by omega)]
  · intro hnil
    have hj := packPars_acc (h - 10) (paraLines w) (pyParagraphs content)
    rw [hnil] at hj
    exact pyParagraphs_ne_nil content hj.symm

/-- witness for C1 at content "a" and a 20 by 13 viewport. -/
theorem c1_witness :
    ∃ gs, paginatePars ("a") 20 13 = some gs ∧ gs ≠ []
      ∧ flatJoin gs = pyParagraphs ("a") :=
  c1_pagination_preserves_paragraphs ("a") 20 13 (by decide) (by decide) (by decide)
    (by decide)

/-- C1 counterexample: at viewport width 10, which the claim admits, the
divisor `console.width - 10` is zero and pagination raises a
`ZeroDivisionError` instead of returning a page list. -/
theorem c1_counterexample :
    (("a" : String) ≠ ("") ∧ (1 : Int) ≤ 10 ∧ (1 : Int) ≤ 5)
    ∧ paginatePars ("a") 10 5 = none := by
  decide

/-- C2 (amended): for empty input content (and any viewport width other
than 10), pagination returns exactly one page whose text is the empty
string, not the placeholder: splitting the empty string yields one empty
paragraph, so the page list is never empty and the placeholder branch of
lines 113-114 does not fire. -/
theorem c2_empty_content_single_empty_page (w h : Int) (hw : w ≠ 10) :
    paginate ("") w h = some [("" : String)]
    ∧ pagesOrPlaceholder [("" : String)] = [("" : String)] := by
  refine ⟨?_, by decide⟩
  unfold paginate paginatePars
  rw [if_neg (by omega)]
  have hpp : pyParagraphs ("") = [("" : String)] := by decide
  rw [hpp]
  have hest : paraLines w ("") = 2 := by
    unfold paraLines
    have h0 : ((("" : String).length : Int)) = 0 := by decide
    have h1 : ((((("" : String)).data.count nlChar) : Int)) = 0 := by decide
    rw [h0, h1, Int.zero_fdiv]
    decide
  unfold packPars packRun
  simp only [List.foldl_cons, List.foldl_nil, packStep, hest]
  by_cases hc2 : (h - 10 : Int) < 0 + 2
  · rw [if_pos hc2, if_neg (by simp)]
    rfl
  · rw [if_neg hc2]
    rfl

/-- witness for C2 at a 20 by 5 viewport. -/
theorem c2_witness :
    paginate ("") 20 5 = some [("" : String)]
    ∧ pagesOrPlaceholder [("" : String)] = [("" : String)] :=
  c2_empty_content_single_empty_page 20 5 (by decide)

/-- C2 counterexample: on empty content the code returns one page of empty
text, not the placeholder page the claim demands. -/
theorem c2_counterexample :
    paginate ("") 80 24 = some [("" : String)]
    ∧ (some [("" : String)] : Option (List String)) ≠ some [noContentPage] := by
  decide

/-- C4: when the page being built is empty (running estimate 0) and the
next paragraph alone overflows the budget, the loop emits that paragraph
unsplit as its own page and resets; and for every input the (total,
terminating) packing loop preserves the full paragraph sequence, dropping
nothing. -/
theorem c4_oversized_paragraph_own_page (b : Int) (est : String → Int)
    (pages : List (List String)) (p : String) (hover : b < est p) :
    packStep b est (PackState.mk pages [] 0) p = PackState.mk (pages ++ [[p]]) [] 0
    ∧ ∀ paras : List String, flatJoin (packPars b est paras) = paras := by
  constructor
  · unfold packStep
    rw [if_pos (by simpa using hover), if_neg (by simp)]
  · exact packPars_acc b est

/-- witness for C4: a 30-character paragraph at budget 3 (the estimate is
5) becomes its own page, and packing ["a", "b"] preserves both
paragraphs. -/
theorem c4_witness :
    packStep 3 (paraLines 20) (PackState.mk [] [] 0) ("aaaaaaaaaaaaaaaaaaaaaaaaaaaaaa")
      = PackState.mk [[("aaaaaaaaaaaaaaaaaaaaaaaaaaaaaa")]] [] 0
    ∧ flatJoin (packPars 3 (paraLines 20) ["a", "b"]) = ["a", "b"] :=
  ⟨(c4_oversized_paragraph_own_page 3 (paraLines 20) []
      ("aaaaaaaaaaaaaaaaaaaaaaaaaaaaaa") (by decide)).1,
   (c4_oversized_paragraph_own_page 3 (paraLines 20) []
      ("aaaaaaaaaaaaaaaaaaaaaaaaaaaaaa") (by decide)).2 ["a", "b"]⟩

/-! ### Line-estimate arithmetic (C3) -/

/-- ceiling division via the add-and-floor formula exceeds flooring
division by one exactly on non-multiples. -/
theorem ceilDiv_eq_div_ite (len dn : Nat) (hdn : 1 ≤ dn) :
    (len + dn - 1) / dn = len / dn + (if dn ∣ len then 0 else 1) := by
  have hq := Nat.div_add_mod len dn
  have hmlt : len % dn < dn := Nat.mod_lt len (by omega)
  have hpos : 0 < dn := by omega
  by_cases hr : len % dn = 0
  · rw [if_pos (Nat.dvd_of_mod_eq_zero hr)]
    have h2 : len + dn - 1 = dn * (len / dn) + (dn - 1) := by omega
    have hlt : dn - 1 < dn := by omega
    rw [h2, @Nat.mul_add_div dn hpos (len / dn) (dn - 1), Nat.div_eq_of_lt hlt]
  · have hnd : ¬ dn ∣ len := fun hd => hr (Nat.mod_eq_zero_of_dvd hd)
    rw [if_neg hnd]
    have h2 : len + dn - 1 = dn * (len / dn + 1) + (len % dn - 1) := by
      rw [Nat.mul_add, Nat.mul_one]
      omega
    have hlt : len % dn - 1 < dn := by omega
    rw [h2, @Nat.mul_add_div dn hpos (len / dn + 1) (len % dn - 1),
      Nat.div_eq_of_lt hlt]

/-- C3 (amended): the length term of the estimate is a FLOOR division by the
unguarded divisor `viewportWidth - 10`, so the estimate is undefined
(ZeroDivisionError) at width 10; for widths of at least 11 it equals the
ceiling formula of the spec exactly when the divisor divides the paragraph
length, and is one less otherwise. -/
theorem c3_estimate_floor_unguarded (para : String) (w : Int) (hw : 11 ≤ w) :
    paraLinesE 10 para = none
    ∧ paraLinesE w para
        = some (if (w - 10).toNat ∣ para.length then specEstimate w para
                else specEstimate w para - 1) := by
  constructor
  · simp [paraLinesE]
  · rw [paraLinesE, if_neg (by omega)]
    congr 1
    unfold paraLines specEstimate
    have hmax : max 1 (w - 10) = w - 10 := max_eq_right (by omega)
    rw [hmax]
    have hdn : ((w - 10).toNat : Int) = w - 10 := Int.toNat_of_nonneg (by omega)
    have hdn1 : 1 ≤ (w - 10).toNat := by omega
    have hfd : Int.fdiv (para.length : Int) (w - 10)
        = ((para.length / (w - 10).toNat : Nat) : Int) := by
      rw [← hdn, Int.fdiv_eq_ediv _ (by omega)]
      exact_mod_cast rfl
    rw [hfd]
    have hceil := ceilDiv_eq_div_ite para.length (w - 10).toNat hdn1
    by_cases hdvd : (w - 10).toNat ∣ para.length
    · rw [if_pos hdvd]
      rw [if_pos hdvd] at hceil
      omega
    · rw [if_neg hdvd]
      rw [if_neg hdvd] at hceil
      omega

/-- witness for C3 at paragraph "abcde" and width 15, where the divisor 5
divides the length 5. -/
theorem c3_witness :
    paraLinesE 10 ("abcde") = none
    ∧ paraLinesE 15 ("abcde")
        = some (if ((15 : Int) - 10).toNat ∣ ("abcde" : String).length
                then specEstimate 15 ("abcde") else specEstimate 15 ("abcde") - 1) :=
  c3_estimate_floor_unguarded ("abcde") 15 (by decide)

/-- C3 counterexample: for the six-character paragraph "abcdef" at width
15 the code computes 3 while the claimed ceiling formula gives 4; and at
width 10 the estimate of the code is undefined while the claimed guarded
formula gives 8. -/
theorem c3_counterexample :
    paraLinesE 15 ("abcdef") = some 3 ∧ specEstimate 15 ("abcdef") = 4
    ∧ paraLinesE 10 ("abcdef") = none ∧ specEstimate 10 ("abcdef") = 8 := by
  decide

/-! ### Navigation lemmas -/

theorem navigate_sections (s : RState) (d : Int) :
    (navigate s d).1.sections = s.sections := by
  unfold navigate
  split_ifs <;> rfl

theorem navigate_pages (s : RState) (d : Int) :
    (navigate s d).1.pages = s.pages := by
  unfold navigate
  split_ifs <;> rfl

/-- navigation never moves the section index out of range. -/
theorem navigate_index_range (s : RState) (d : Int) (hne : s.sections ≠ [])
    (h0 : 0 ≤ s.current_index) (h1 : s.current_index < (s.sections.length : Int)) :
    0 ≤ (navigate s d).1.current_index
    ∧ (navigate s d).1.current_index < (s.sections.length : Int) := by
  have hlen : 0 < s.sections.length := List.length_pos.mpr hne
  unfold navigate
  split_ifs <;> simp_all <;> omega

/-- C6: every navigation operation that reports failure leaves the state
entirely unchanged (no partial update), and no operation ever changes the
section list or the cached page list; a move past a boundary is therefore
a complete no-op, not an error. -/
theorem c6_navigate_atomic (s : RState) (d : Int)
    (hfail : (navigate s d).2 = false) :
    (navigate s d).1 = s := by
  unfold navigate at hfail ⊢
  split_ifs at hfail ⊢ <;> simp_all

/-- witness for C6: next-section at the only section fails and changes
nothing. -/
theorem c6_witness :
    (navigate (RState.mk ["x"] 0 0 ["x"]) 1).1 = RState.mk ["x"] 0 0 ["x"] :=
  c6_navigate_atomic (RState.mk ["x"] 0 0 ["x"]) 1 (by decide)

/-- successful next-section step of `navigate`. -/
theorem nav1_succ (secs : List String) (ci cp : Int) (pgs : List String)
    (h0 : 0 ≤ ci + 1) (h1 : ci + 1 < (secs.length : Int)) :
    navigate (RState.mk secs ci cp pgs) 1 = (RState.mk secs (ci + 1) 0 pgs, true) := by
  unfold navigate
  dsimp only
  rw [if_pos (Or.inr rfl : (1 : Int) = -1 ∨ (1 : Int) = 1)]
  rw [if_pos (And.intro h0 h1)]

/-- successful previous-section step of `navigate`. -/
theorem navm1_succ (secs : List String) (ci cp : Int) (pgs : List String)
    (h0 : 0 ≤ ci + -1) (h1 : ci + -1 < (secs.length : Int)) :
    navigate (RState.mk secs ci cp pgs) (-1) = (RState.mk secs (ci + -1) 0 pgs, true) := by
  unfold navigate
  dsimp only
  rw [if_pos (Or.inl rfl : (-1 : Int) = -1 ∨ (-1 : Int) = 1)]
  rw [if_pos (And.intro h0 h1)]

/-- C8 (amended): for a section index that is valid and NOT the last one,
nextSection followed by prevSection returns to the original section with
page index 0; at the last valid section index the claim fails because
nextSection is a no-op there while prevSection still moves back. -/
theorem c8_next_prev_roundtrip (s : RState) (h0 : 0 ≤ s.current_index)
    (h1 : s.current_index + 1 < (s.sections.length : Int)) :
    (navigate (navigate s 1).1 (-1)).1.current_index = s.current_index
    ∧ (navigate (navigate s 1).1 (-1)).1.current_page = 0
    ∧ (navigate (navigate s 1).1 (-1)).2 = true := by
  obtain ⟨secs, ci, cp, pgs⟩ := s
  dsimp only at h0 h1 ⊢
  rw [nav1_succ secs ci cp pgs (by omega) h1]
  dsimp only
  rw [navm1_succ secs (ci + 1) 0 pgs (by omega) (by omega)]
  refine ⟨?_, rfl, rfl⟩
  dsimp only
  omega

/-- witness for C8 at the first of two sections. -/
theorem c8_witness :
    (navigate (navigate (RState.mk ["x", "x"] 0 0 ["x"]) 1).1 (-1)).1.current_index = 0
    ∧ (navigate (navigate (RState.mk ["x", "x"] 0 0 ["x"]) 1).1 (-1)).1.current_page = 0
    ∧ (navigate (navigate (RState.mk ["x", "x"] 0 0 ["x"]) 1).1 (-1)).2 = true :=
  c8_next_prev_roundtrip (RState.mk ["x", "x"] 0 0 ["x"]) (by decide) (by decide)

/-- C8 counterexample: at the last of two sections (a valid index),
nextSection is a no-op and prevSection then lands on section 0, not back
on section 1. -/
theorem c8_counterexample :
    (navigate (navigate (RState.mk ["x", "x"] 1 0 ["x"]) 1).1 (-1)).1.current_index = 0
    ∧ ((0 : Int) = 1 → False)
    ∧ (navigate (RState.mk ["x", "x"] 1 0 ["x"]) 1).2 = false := by
  decide

/-- successful page-decrement step of `navigate`. -/
theorem nav_prevpage_dec (secs : List String) (ci cp : Int) (pgs : List String)
    (h0 : 0 ≤ cp + -1) (h1 : cp + -1 < (pgs.length : Int)) :
    navigate (RState.mk secs ci cp pgs) (-2) = (RState.mk secs ci (cp + -1) pgs, true) := by
  unfold navigate
  dsimp only
  rw [if_neg (show ¬((-2 : Int) = -1 ∨ (-2 : Int) = 1) by decide)]
  rw [if_pos (Or.inl rfl : (-2 : Int) = -2 ∨ (-2 : Int) = 2)]
  simp only [if_neg (show ¬((-2 : Int) = 2) by decide)]
  rw [if_pos (And.intro h0 h1)]

/-- cross-section step of prevPage: page index set from the OLD cached
page list. -/
theorem nav_prevpage_cross (secs : List String) (ci cp : Int) (pgs : List String)
    (hp : ¬(0 ≤ cp + -1 ∧ cp + -1 < (pgs.length : Int)))
    (h0 : 0 ≤ ci + -1) (h1 : ci + -1 < (secs.length : Int)) :
    navigate (RState.mk secs ci cp pgs) (-2)
      = (RState.mk secs (ci + -1) ((pgs.length : Int) - 1) pgs, true) := by
  unfold navigate
  dsimp only
  rw [if_neg (show ¬((-2 : Int) = -1 ∨ (-2 : Int) = 1) by decide)]
  rw [if_pos (Or.inl rfl : (-2 : Int) = -2 ∨ (-2 : Int) = 2)]
  simp only [if_neg (show ¬((-2 : Int) = 2) by decide)]
  rw [if_neg hp, if_pos (And.intro h0 h1)]

/-- failing prevPage is a no-op. -/
theorem nav_prevpage_noop (secs : List String) (ci cp : Int) (pgs : List String)
    (hp : ¬(0 ≤ cp + -1 ∧ cp + -1 < (pgs.length : Int)))
    (hs : ¬(0 ≤ ci + -1 ∧ ci + -1 < (secs.length : Int))) :
    navigate (RState.mk secs ci cp pgs) (-2) = (RState.mk secs ci cp pgs, false) := by
  unfold navigate
  dsimp only
  rw [if_neg (show ¬((-2 : Int) = -1 ∨ (-2 : Int) = 1) by decide)]
  rw [if_pos (Or.inl rfl : (-2 : Int) = -2 ∨ (-2 : Int) = 2)]
  simp only [if_neg (show ¬((-2 : Int) = 2) by decide)]
  rw [if_neg hp, if_neg hs]

/-- C5 (amended): prevPage decrements the page index when possible; when
the page index is 0 and a previous section exists, it moves to the
previous section and sets the page index to the last index of the OLD
cached page list (`len(self.pages) - 1` before re-pagination), not of the
page list of the new section; at the first page of the first section it is a
no-op. -/
theorem c5_prev_page (s : RState)
    (hci0 : 0 ≤ s.current_index) (hci1 : s.current_index < (s.sections.length : Int))
    (hcp0 : 0 ≤ s.current_page) (hcp1 : s.current_page < (s.pages.length : Int)) :
    (1 ≤ s.current_page →
      navigate s (-2)
        = (RState.mk s.sections s.current_index (s.current_page + -1) s.pages, true))
    ∧ (s.current_page = 0 → 1 ≤ s.current_index →
      navigate s (-2)
        = (RState.mk s.sections (s.current_index + -1)
            ((s.pages.length : Int) - 1) s.pages, true))
    ∧ (s.current_page = 0 → s.current_index = 0 → navigate s (-2) = (s, false)) := by
  obtain ⟨secs, ci, cp, pgs⟩ := s
  dsimp only at hci0 hci1 hcp0 hcp1 ⊢
  refine ⟨fun h => ?_, fun h h2 => ?_, fun h h2 => ?_⟩
  · exact nav_prevpage_dec secs ci cp pgs (by omega) (by omega)
  · exact nav_prevpage_cross secs ci cp pgs (by omega) (by omega) (by omega)
  · exact nav_prevpage_noop secs ci cp pgs (by omega) (by omega)

/-- witness for C5: with two cached pages, prevPage from page 0 of section
1 moves to section 0 at the last index 1 of the old list. -/
theorem c5_witness :
    navigate (RState.mk ["a", "b"] 1 0 ["p1", "p2"]) (-2)
      = (RState.mk ["a", "b"] 0 1 ["p1", "p2"], true) :=
  (c5_prev_page (RState.mk ["a", "b"] 1 0 ["p1", "p2"]) (by decide) (by decide)
    (by decide) (by decide)).2.1 rfl (by decide)

/-- C5 counterexample: from page 0 of section 1 with the current section having a
single cached page, prevPage lands on page index 0, while the newly
current section paginates to two pages whose last index is 1, the target demanded by the claim. -/
theorem c5_counterexample :
    (navigate (RState.mk ["x\n\nx", "x"] 1 0 ["x"]) (-2)).1
      = RState.mk ["x\n\nx", "x"] 0 0 ["x"]
    ∧ paginate ("x\n\nx") 20 13 = some ["x", "x"]
    ∧ paginate ("x") 20 13 = some ["x"]
    ∧ ((0 : Int) = (2 : Int) - 1 → False) := by
  decide

/-! ### Display and reachability lemmas -/

theorem pagesOrPlaceholder_len (ps : List String) :
    1 ≤ (pagesOrPlaceholder ps).length := by
  unfold pagesOrPlaceholder
  split_ifs with hnil
  · decide
  · exact List.length_pos.mpr hnil

theorem clampPage_bounds (n : Nat) (p : Int) (hn : 1 ≤ n) :
    0 ≤ clampPage n p ∧ clampPage n p < (n : Int) := by
  unfold clampPage
  split_ifs <;> omega

theorem pyGet_of_range {α : Type} (l : List α) (i : Int)
    (h0 : 0 ≤ i) (h1 : i < (l.length : Int)) : ∃ x, pyGet l i = some x := by
  unfold pyGet
  rw [if_neg (by omega)]
  have hlt : i.toNat < l.length := by omega
  exact ⟨l[i.toNat], List.getElem?_eq_getElem hlt⟩

/-- a successful display establishes the range invariant. -/
theorem displayUpdate_inv (w h : Int) (s s2 : RState) (hne : s.sections ≠ [])
    (h0 : 0 ≤ s.current_index) (h1 : s.current_index < (s.sections.length : Int))
    (hdisp : displayUpdate w h s = some s2) : NavInv w h s2 := by
  unfold displayUpdate at hdisp
  rw [if_neg hne] at hdisp
  split at hdisp
  · exact absurd hdisp (by simp)
  · rename_i content hg
    split at hdisp
    · exact absurd hdisp (by simp)
    · rename_i ps0 hp
      split at hdisp
      · exact absurd hdisp (by simp)
      · rename_i pg hq
        have hs2 := (Option.some.inj hdisp).symm
        subst hs2
        have hlen := pagesOrPlaceholder_len ps0
        have hcb := clampPage_bounds (pagesOrPlaceholder ps0).length s.current_page hlen
        exact ⟨h0, h1, hcb.1, hcb.2, content, ps0, hg, hp, rfl⟩

/-- the loop steps preserve the range invariant. -/
theorem runSteps_inv (w h : Int) (ds : List Int) :
    ∀ s s2 : RState, NavInv w h s → runSteps w h s ds = some s2 → NavInv w h s2 := by
  induction ds with
  | nil =>
    intro s s2 hinv hrun
    unfold runSteps at hrun
    rw [← Option.some.inj hrun]
    exact hinv
  | cons d ds ih =>
    intro s s2 hinv hrun
    unfold runSteps at hrun
    split at hrun
    · exact absurd hrun (by simp)
    · rename_i s1 hd
      have hne : s.sections ≠ [] := by
        intro hnil
        have := hinv.2.1
        rw [hnil] at this
        have h0 := hinv.1
        simp at this
        omega
      have hrange := navigate_index_range s d hne hinv.1 hinv.2.1
      have hsec := navigate_sections s d
      have hinv1 : NavInv w h s1 := by
        refine displayUpdate_inv w h (navigate s d).1 s1 ?_ hrange.1 ?_ hd
        · rw [hsec]; exact hne
        · rw [hsec]; exact hrange.2
      exact ih s1 s2 hinv1 hrun

/-- C7: every state reached from the initial position by the displayed
main loop (initial display, then navigate-and-display steps) has its
section index in range of the section list and its page index in range of
the freshly re-derived page list of the current section. -/
theorem c7_reachable_states_in_range (w h : Int) (sections : List String)
    (ds : List Int) (s : RState) (hne : sections ≠ [])
    (hrun : navRun w h sections ds = some s) : NavInv w h s := by
  unfold navRun at hrun
  split at hrun
  · exact absurd hrun (by simp)
  · rename_i s0 hd
    have hlen : 0 < sections.length := List.length_pos.mpr hne
    have hinv0 : NavInv w h s0 := by
      refine displayUpdate_inv w h (initState sections) s0 hne ?_ ?_ hd
      · exact le_refl 0
      · show (0 : Int) < (sections.length : Int)
        exact_mod_cast hlen
    exact runSteps_inv w h ds s0 s hinv0 hrun

/-- witness for C7: a one-section book after one next-page key press. -/
theorem c7_witness : NavInv 20 13 (RState.mk ["x"] 0 0 ["x"]) :=
  c7_reachable_states_in_range 20 13 ["x"] [2] (RState.mk ["x"] 0 0 ["x"])
    (by decide) (by decide)

/-- C10: when a section exists and pagination of the current section
succeeds, display clamps a leftover out-of-range page index — to the last
page when it is at least the page count, to 0 when negative — before the
page is read, so the page lookup is in bounds and the display update
succeeds. -/
theorem c10_display_clamps_page_index (w h : Int) (s : RState)
    (hne : s.sections ≠ [])
    (c : String) (hc : pyGet s.sections s.current_index = some c)
    (ps0 : List String) (hp : paginate c w h = some ps0) :
    ∃ s2, displayUpdate w h s = some s2
      ∧ s2.pages = pagesOrPlaceholder ps0
      ∧ s2.current_page = clampPage (pagesOrPlaceholder ps0).length s.current_page
      ∧ (((pagesOrPlaceholder ps0).length : Int) ≤ s.current_page →
          s2.current_page = ((pagesOrPlaceholder ps0).length : Int) - 1)
      ∧ (s.current_page < 0 → s2.current_page = 0)
      ∧ 0 ≤ s2.current_page ∧ s2.current_page < (s2.pages.length : Int) := by
  have hlen := pagesOrPlaceholder_len ps0
  have hcb := clampPage_bounds (pagesOrPlaceholder ps0).length s.current_page hlen
  obtain ⟨pg, hpg⟩ := pyGet_of_range (pagesOrPlaceholder ps0)
    (clampPage (pagesOrPlaceholder ps0).length s.current_page) hcb.1 hcb.2
  refine ⟨RState.mk s.sections s.current_index
      (clampPage (pagesOrPlaceholder ps0).length s.current_page)
      (pagesOrPlaceholder ps0), ?_, rfl, rfl, ?_, ?_, hcb.1, hcb.2⟩
  · simp only [displayUpdate, if_neg hne, hc, hp, hpg]
  · intro hge
    unfold clampPage
    rw [if_pos hge]
  · intro hlt
    unfold clampPage
    rw [if_neg (by omega), if_pos hlt]

/-- witness for C10: a stale page index 5 on a section that paginates to
two pages is clamped to 1. -/
theorem c10_witness :
    ∃ s2, displayUpdate 20 13 (RState.mk ["x\n\nx"] 0 5 []) = some s2
      ∧ s2.pages = pagesOrPlaceholder ["x", "x"]
      ∧ s2.current_page
          = clampPage (pagesOrPlaceholder ["x", "x"]).length
              ((RState.mk ["x\n\nx"] 0 5 []).current_page)
      ∧ (((pagesOrPlaceholder ["x", "x"]).length : Int)
            ≤ (RState.mk ["x\n\nx"] 0 5 []).current_page →
          s2.current_page = ((pagesOrPlaceholder ["x", "x"]).length : Int) - 1)
      ∧ ((RState.mk ["x\n\nx"] 0 5 []).current_page < 0 → s2.current_page = 0)
      ∧ 0 ≤ s2.current_page ∧ s2.current_page < (s2.pages.length : Int) :=
  c10_display_clamps_page_index 20 13 (RState.mk ["x\n\nx"] 0 5 []) (by decide)
    ("x\n\nx") (by decide) ["x", "x"] (by decide)

/-! ### Title resolution (C9) -/

/-- the early-return heading loop is the first match of the heading
predicate, transformed by marker stripping. -/
theorem findHeading_eq_find (ls : List (List Char)) :
    findHeading ls = (ls.find? isHeading).map stripHeadingMarks := by
  induction ls with
  | nil => rfl
  | cons l ls ih =>
    unfold findHeading
    by_cases hl : isHeading l
    · rw [if_pos hl, List.find?_cons_of_pos ls hl]
      rfl
    · rw [if_neg hl, List.find?_cons_of_neg ls (by simpa using hl), ih]

/-- C9 (amended): title resolution tries, in priority order with first
match winning: (1) a non-empty declared title; (2) the first
heading-marker line among the first 5 LINES of the whitespace-stripped
converted content (interior blank lines count toward the five), with
marker characters and surrounding whitespace stripped; (3) the file name
with the extension of the last path component stripped and underscores replaced
by spaces. With no declared title and content of a heading line then a
body line, the resolved title is the stripped heading. -/
theorem c9_title_resolution :
    (∀ t c f : String, t ≠ ("") → extractTitle (some t) c f = t)
    ∧ (∀ c f : String, extractTitle none c f
        = match ((splitNL (stripWS c.data)).take 5).find? isHeading with
          | some l => String.mk (stripHeadingMarks l)
          | none => fileNameFallback f)
    ∧ extractTitle none ("# Intro\nbody") ("x.html") = ("Intro")
    ∧ extractTitle none ("hello") ("part_two.html") = ("part two") := by
  refine ⟨?_, ?_, by decide, by decide⟩
  · intro t c f ht
    have hz : ¬(t.length = 0) := by
      intro hz
      apply ht
      cases t with
      | mk data =>
        cases data with
        | nil => rfl
        | cons a as => simp [String.length] at hz
    unfold extractTitle
    dsimp only
    rw [if_neg hz]
  · intro c f
    unfold extractTitle titleFromContent
    rw [findHeading_eq_find]
    cases ((splitNL (stripWS c.data)).take 5).find? isHeading <;> rfl

/-- witness for C9: a declared title wins, and the file-name fallback
replaces underscores after stripping the extension. -/
theorem c9_witness :
    extractTitle (some ("Ch1")) ("hello") ("x.html") = ("Ch1")
    ∧ extractTitle none ("hello") ("part_two.html") = ("part two") :=
  ⟨c9_title_resolution.1 ("Ch1") ("hello") ("x.html") (by decide),
   c9_title_resolution.2.2.2⟩

/-- C9 counterexample: the code scans the first five RAW lines of the
stripped content, so a heading preceded by four blank lines and one text
line is missed and the file-name fallback wins, while the rule of the claim, first five NON-empty lines, would find the heading. -/
theorem c9_counterexample :
    extractTitle none ("a\n\n\n\n\n# H\n") ("x.html") = ("x")
    ∧ specExtractTitle none ("a\n\n\n\n\n# H\n") ("x.html") = ("H")
    ∧ (("x" : String) = ("H") → False) := by
  decide

end Weft
